import Mathlib

/-!
Verification of the attendance projection and planning engine of the
UniTrack app against its specification.

The definitions below are a shallow embedding of the TypeScript source:
  * `src/lib/utils.ts`            — status classification, bunk/attend counts,
                                    effective thresholds;
  * `src/lib/vacationPlanner.ts`  — day-range generation, per-subject impact
                                    aggregation, vacation-window search;
  * `src/components/TodayCard.tsx` — the per-slot verdict.

Modelling conventions:
  * JS numbers are modelled as `ℚ` (percentages, thresholds, penalties) and
    `ℤ`/`ℕ` (counts, day offsets); floating-point rounding is not modelled.
  * Calendar dates are modelled as integer day offsets from "today"; the JS
    `Date` weekday advances by one (mod 7) per day, so a date's weekday is
    `(todayJsDay + offset) % 7`.  The `YYYY-MM-DD` string of a date is in
    bijection with the date, so the holiday set is a predicate on offsets.
  * JS `Map.get` / object lookup is an `Option`-valued function; `x ?? d` is
    `Option.getD`; the non-null assertion `x!` is `Option.getD` with an inert
    default (`defaultSubject`), justified where used by a lemma showing the
    lookup always succeeds.
  * `Array.prototype.sort` (stable since ES2019) with comparator `cmp` is
    `List.mergeSort` with the Bool relation `cmp a b ≤ 0`.
-/

namespace UniTrack

/-- Attendance status classification returned by `calculateStatus`
(src/lib/utils.ts). -/
inductive Status
  | safe
  | critical
  | low
  | no_data
deriving DecidableEq, Repr

/-- A subject snapshot as fetched from the backend (spec §3): raw counts plus
the percentage the backend reported. -/
structure Subject where
  name : String
  code : String
  attended : ℤ
  total : ℤ
  percentage : ℚ
deriving DecidableEq, Repr

/-- Buffer percentage above threshold (src/lib/utils.ts line 3). -/
def BUFFER : ℚ := 5

/-- Models `calculateStatus` (src/lib/utils.ts lines 5–17).  The `total`
parameter defaults to `-1` in the source; callers that omit it are modelled by
`calculateStatusDefaultTotal` below. -/
def calculateStatus (percentage threshold : ℚ) (total : ℤ) : Status :=
  if total = 0 then .no_data
  else if threshold + BUFFER ≤ percentage then .safe
  else if threshold ≤ percentage then .critical
  else .low

/-- Models a call of `calculateStatus` that omits the optional `total`
argument, as in `calculateStatus(overallPercentage, globalThreshold)`
(src/components/OverallStatsCard.tsx line 77): the default `total = -1`
applies. -/
def calculateStatusDefaultTotal (percentage threshold : ℚ) : Status :=
  calculateStatus percentage threshold (-1)

/-- Models `calculateClassesToBunk` (src/lib/utils.ts lines 59–66):
`Math.max(0, Math.floor(attended * 100 / threshold - total))`. -/
def calculateClassesToBunk (attended total : ℤ) (threshold : ℚ) : ℤ :=
  max 0 ⌊((attended : ℚ) * 100) / threshold - (total : ℚ)⌋

/-- Return type of `calculateClassesToAttend`: a finite count, or the JS
`Infinity` sentinel. -/
inductive AttendCount
  | num (k : ℤ)
  | inf
deriving DecidableEq, Repr

/-- Models `calculateClassesToAttend` (src/lib/utils.ts lines 68–78):
`Infinity` when `threshold >= 100`, otherwise
`Math.max(0, Math.ceil((total * threshold - attended * 100) / (100 - threshold)))`. -/
def calculateClassesToAttend (attended total : ℤ) (threshold : ℚ) : AttendCount :=
  if 100 ≤ threshold then .inf
  else .num (max 0 ⌈((total : ℚ) * threshold - (attended : ℚ) * 100) / (100 - threshold)⌉)

/-- Models `getSubjectKey` (src/lib/utils.ts lines 98–100):
`subject.code || subject.name` (empty string is falsy in JS). -/
def getSubjectKey (s : Subject) : String :=
  if s.code = "" then s.name else s.code

/-- Models `getEffectiveThreshold` (src/lib/utils.ts lines 102–109):
`subjectThresholds[key] ?? globalThreshold`. -/
def getEffectiveThreshold (s : Subject) (globalThreshold : ℚ)
    (subjectThresholds : String → Option ℚ) : ℚ :=
  (subjectThresholds (getSubjectKey s)).getD globalThreshold

/-- Per-slot recommendation produced by `getVerdict`
(src/components/TodayCard.tsx). -/
inductive Verdict
  | skip
  | risky
  | attend
  | no_data
deriving DecidableEq, Repr

/-- Models `getVerdict` (src/components/TodayCard.tsx lines 94–111). -/
def getVerdict (subject : Subject) (threshold : ℚ) : Verdict :=
  let status := calculateStatus subject.percentage threshold subject.total
  if status = .no_data then .no_data
  else if status = .safe ∧ 0 < calculateClassesToBunk subject.attended subject.total threshold then
    .skip
  else if status = .low then .attend
  else .risky

/-- C2: for every percentage, threshold and total: `total = 0` yields `no_data`
regardless of percentage and threshold; otherwise `percentage ≥ threshold + 5`
yields `safe`, `threshold ≤ percentage < threshold + 5` yields `critical`, and
`percentage < threshold` yields `low`. -/
theorem calculateStatus_classification (percentage threshold : ℚ) (total : ℤ) :
    (total = 0 → calculateStatus percentage threshold total = .no_data) ∧
    (total ≠ 0 →
      (threshold + 5 ≤ percentage → calculateStatus percentage threshold total = .safe) ∧
      (threshold ≤ percentage → percentage < threshold + 5 →
        calculateStatus percentage threshold total = .critical) ∧
      (percentage < threshold → calculateStatus percentage threshold total = .low)) := by
  constructor
  · intro h
    simp [calculateStatus, h]
  · intro h
    refine ⟨fun h1 => ?_, fun h1 h2 => ?_, fun h1 => ?_⟩
    · simp [calculateStatus, BUFFER, h, h1]
    · have hn : ¬ (threshold + BUFFER ≤ percentage) := by unfold BUFFER; linarith
      simp [calculateStatus, h, hn, h1]
    · have hn : ¬ (threshold + BUFFER ≤ percentage) := by unfold BUFFER; linarith
      have hn2 : ¬ (threshold ≤ percentage) := by linarith
      simp [calculateStatus, h, hn, hn2]

theorem calculateStatus_classification_witness :
    calculateStatus 0 0 0 = .no_data ∧ calculateStatus 80 75 25 = .safe ∧
    calculateStatus 76 75 25 = .critical ∧ calculateStatus 70 75 25 = .low :=
  ⟨(calculateStatus_classification 0 0 0).1 rfl,
   ((calculateStatus_classification 80 75 25).2 (by decide)).1 (by norm_num),
   ((calculateStatus_classification 76 75 25).2 (by decide)).2.1 (by norm_num) (by norm_num),
   ((calculateStatus_classification 70 75 25).2 (by decide)).2.2 (by norm_num)⟩

/-- C10: `calculateStatus` returns `no_data` only for `total = 0`: for every
negative total — including the default `-1` used when a caller omits the
argument, as the overall-attendance status computation does — it classifies by
percentage and threshold alone and never returns `no_data`. -/
theorem calculateStatus_negative_total (percentage threshold : ℚ) (total : ℤ)
    (h : total < 0) :
    calculateStatus percentage threshold total ≠ .no_data ∧
    calculateStatus percentage threshold total =
      calculateStatusDefaultTotal percentage threshold ∧
    calculateStatus percentage threshold total =
      (if threshold + 5 ≤ percentage then .safe
       else if threshold ≤ percentage then .critical
       else .low) := by
  have h0 : total ≠ 0 := by omega
  have hm : (-1 : ℤ) ≠ 0 := by decide
  unfold calculateStatusDefaultTotal calculateStatus BUFFER
  simp only [h0, hm, if_false, if_neg]
  split_ifs <;> simp_all

theorem calculateStatus_negative_total_witness :
    calculateStatus 50 75 (-1) ≠ .no_data ∧
    calculateStatus 50 75 (-1) = calculateStatusDefaultTotal 50 75 :=
  ⟨(calculateStatus_negative_total 50 75 (-1) (by decide)).1,
   (calculateStatus_negative_total 50 75 (-1) (by decide)).2.1⟩

/-- C3: `calculateClassesToAttend` returns the infinity sentinel iff
`threshold ≥ 100`; otherwise, for every `attended ≥ 0` and `total ≥ attended`,
the returned `k` is the minimal non-negative integer with
`(attended + k) * 100 / (total + k) ≥ threshold` (stated multiplied out by the
positive quantities `total + k` and `100 - threshold`, which clears the
denominator without changing its content). -/
theorem calculateClassesToAttend_minimal (attended total : ℤ) (threshold : ℚ)
    (h1 : 0 ≤ attended) (h2 : attended ≤ total) :
    (calculateClassesToAttend attended total threshold = .inf ↔ 100 ≤ threshold) ∧
    (threshold < 100 →
      ∃ k : ℤ, calculateClassesToAttend attended total threshold = .num k ∧
        0 ≤ k ∧
        threshold * ((total : ℚ) + (k : ℚ)) ≤ 100 * ((attended : ℚ) + (k : ℚ)) ∧
        ∀ j : ℤ, 0 ≤ j →
          threshold * ((total : ℚ) + (j : ℚ)) ≤ 100 * ((attended : ℚ) + (j : ℚ)) →
          k ≤ j) := by
  constructor
  · constructor
    · intro h
      by_contra hc
      push_neg at hc
      simp [calculateClassesToAttend, not_le.mpr hc] at h
    · intro h
      simp [calculateClassesToAttend, h]
  · intro ht
    have hpos : (0 : ℚ) < 100 - threshold := by linarith
    set q : ℚ := ((total : ℚ) * threshold - (attended : ℚ) * 100) / (100 - threshold) with hq
    refine ⟨max 0 ⌈q⌉, ?_, le_max_left _ _, ?_, ?_⟩
    · simp [calculateClassesToAttend, not_le.mpr ht, hq]
    · have hk : q ≤ ((max 0 ⌈q⌉ : ℤ) : ℚ) := by
        calc q ≤ (⌈q⌉ : ℚ) := Int.le_ceil q
        _ ≤ ((max 0 ⌈q⌉ : ℤ) : ℚ) := by exact_mod_cast le_max_right 0 ⌈q⌉
      have hmul : q * (100 - threshold) ≤ ((max 0 ⌈q⌉ : ℤ) : ℚ) * (100 - threshold) :=
        mul_le_mul_of_nonneg_right hk (le_of_lt hpos)
      have hql : q * (100 - threshold) = (total : ℚ) * threshold - (attended : ℚ) * 100 := by
        rw [hq, div_mul_cancel₀]
        exact ne_of_gt hpos
      rw [hql] at hmul
      nlinarith [hmul]
    · intro j hj hsat
      have hjq : q ≤ (j : ℚ) := by
        rw [hq, div_le_iff₀ hpos]
        nlinarith [hsat]
      have hcj : ⌈q⌉ ≤ j := Int.ceil_le.mpr hjq
      exact max_le hj hcj

theorem calculateClassesToAttend_minimal_witness :
    calculateClassesToAttend 18 25 75 = .num 3 ∧
    (75 : ℚ) * (25 + 3) ≤ 100 * (18 + 3) := by
  have heval : calculateClassesToAttend 18 25 75 = .num 3 := by
    unfold calculateClassesToAttend
    norm_num
  refine ⟨heval, ?_⟩
  obtain ⟨k, hk, -, hsat, -⟩ :=
    (calculateClassesToAttend_minimal 18 25 75 (by decide) (by decide)).2 (by norm_num)
  rw [heval] at hk
  have hk3 : k = 3 := by
    cases hk
    rfl
  rw [hk3] at hsat
  push_cast at hsat
  linarith

/-- C4: for `attended ≥ 0`, `total ≥ attended` and a threshold in the valid
percentage range (here `0 < threshold ≤ 100`: `threshold = 0` divides by zero
in the source formula and is outside the rational model),
`calculateClassesToBunk` equals the clamped floor formula, is non-negative,
and whenever it is positive the resulting attendance ratio stays at or above
the threshold (the bound even holds exactly, without floor tolerance). -/
theorem calculateClassesToBunk_spec (attended total : ℤ) (threshold : ℚ)
    (h1 : 0 ≤ attended) (h2 : attended ≤ total) (h3 : 0 < threshold)
    (h4 : threshold ≤ 100) :
    calculateClassesToBunk attended total threshold =
      max 0 ⌊((attended : ℚ) * 100) / threshold - (total : ℚ)⌋ ∧
    0 ≤ calculateClassesToBunk attended total threshold ∧
    (0 < calculateClassesToBunk attended total threshold →
      threshold ≤ ((attended : ℚ) * 100) /
        ((total : ℚ) + (calculateClassesToBunk attended total threshold : ℚ))) := by
  refine ⟨rfl, le_max_left _ _, ?_⟩
  intro hpos
  set x : ℚ := ((attended : ℚ) * 100) / threshold - (total : ℚ) with hx
  have hkx : calculateClassesToBunk attended total threshold = max 0 ⌊x⌋ := rfl
  have hfl : 0 < ⌊x⌋ := by
    by_contra hc
    push_neg at hc
    rw [hkx] at hpos
    omega
  have hkfl : calculateClassesToBunk attended total threshold = ⌊x⌋ := by
    rw [hkx]
    omega
  have hle : ((⌊x⌋ : ℤ) : ℚ) ≤ x := Int.floor_le x
  have htot : (0 : ℚ) ≤ (total : ℚ) := by
    have : (0 : ℤ) ≤ total := le_trans h1 h2
    exact_mod_cast this
  have hden : (0 : ℚ) < (total : ℚ) + ((⌊x⌋ : ℤ) : ℚ) := by
    have : (0 : ℚ) < ((⌊x⌋ : ℤ) : ℚ) := by exact_mod_cast hfl
    linarith
  rw [hkfl]
  rw [le_div_iff₀ hden]
  have hxx : x * threshold = (attended : ℚ) * 100 - (total : ℚ) * threshold := by
    rw [hx, sub_mul, div_mul_cancel₀]
    exact ne_of_gt h3
  nlinarith [mul_le_mul_of_nonneg_right hle (le_of_lt h3)]

theorem calculateClassesToBunk_spec_witness :
    calculateClassesToBunk 20 25 75 = 1 ∧
    (75 : ℚ) ≤ ((20 : ℚ) * 100) / ((25 : ℚ) + (calculateClassesToBunk 20 25 75 : ℚ)) := by
  have heval : calculateClassesToBunk 20 25 75 = 1 := by
    unfold calculateClassesToBunk
    norm_num
  refine ⟨heval, ?_⟩
  have h := (calculateClassesToBunk_spec 20 25 75 (by decide) (by decide)
    (by norm_num) (by norm_num)).2.2
  exact h (by rw [heval]; decide)

/-- C7: the per-slot verdict is `no_data` when the subject has `total = 0`;
else `skip` when the status is `safe` and `classesToBunk` is positive; else
`attend` when the status is `low`; else `risky` — covering status `critical`
and status `safe` with no bunkable headroom. -/
theorem getVerdict_spec (subject : Subject) (threshold : ℚ) :
    (subject.total = 0 → getVerdict subject threshold = .no_data) ∧
    (subject.total ≠ 0 →
      calculateStatus subject.percentage threshold subject.total = .safe →
      0 < calculateClassesToBunk subject.attended subject.total threshold →
      getVerdict subject threshold = .skip) ∧
    (subject.total ≠ 0 →
      calculateStatus subject.percentage threshold subject.total = .low →
      getVerdict subject threshold = .attend) ∧
    (subject.total ≠ 0 →
      calculateStatus subject.percentage threshold subject.total = .critical →
      getVerdict subject threshold = .risky) ∧
    (subject.total ≠ 0 →
      calculateStatus subject.percentage threshold subject.total = .safe →
      calculateClassesToBunk subject.attended subject.total threshold ≤ 0 →
      getVerdict subject threshold = .risky) := by
  refine ⟨fun h => ?_, fun h hst hb => ?_, fun h hst => ?_, fun h hst => ?_, fun h hst hb => ?_⟩
  · have hnd : calculateStatus subject.percentage threshold subject.total = .no_data := by
      simp [calculateStatus, h]
    simp [getVerdict, hnd]
  · simp [getVerdict, hst, hb]
  · simp [getVerdict, hst]
  · simp [getVerdict, hst]
  · have hnb : ¬ (0 < calculateClassesToBunk subject.attended subject.total threshold) :=
      not_lt.mpr hb
    simp [getVerdict, hst, hnb]

theorem getVerdict_spec_witness :
    getVerdict ⟨"Maths", "MA101", 20, 25, 80⟩ 75 = .skip := by
  have hst : calculateStatus (80 : ℚ) 75 25 = .safe := by
    unfold calculateStatus BUFFER
    norm_num
  have hb : (0 : ℤ) < calculateClassesToBunk 20 25 75 := by
    unfold calculateClassesToBunk
    norm_num
  exact (getVerdict_spec ⟨"Maths", "MA101", 20, 25, 80⟩ 75).2.1 (by decide) hst hb

/-- Weekly timetable (spec §3): day index 0=Mon..5=Sat to the scheduled subject
codes.  The function totalizes the JS lookup `timetable[i] ?? []`: indices
without an entry map to `[]`. -/
def Timetable : Type := ℤ → List String

/-- Models a `VacationDay` (src/lib/vacationPlanner.ts lines 5–12).  `date` is
the day offset from today; `dateStr` is omitted since it is in bijection with
the date. -/
structure VacationDay where
  date : ℤ
  jsDay : ℤ
  timetableDayIndex : ℤ
  isSunday : Bool
  isHoliday : Bool
deriving DecidableEq, Repr

/-- Models a `SubjectImpact` (spec §3; built in src/lib/vacationPlanner.ts
lines 95–137). -/
structure SubjectImpact where
  code : String
  name : String
  classCount : ℕ
  currentPct : ℚ
  projectedPct : ℚ
  drop : ℚ
  currentBunkable : ℤ
  projectedBunkable : ℤ
  breachesThreshold : Bool
  isNoData : Bool
deriving DecidableEq, Repr

/-- Models a `VacationImpactResult` (src/lib/vacationPlanner.ts lines 14–19). -/
structure VacationImpactResult where
  impacts : List SubjectImpact
  totalClasses : ℕ
  activeDays : ℕ
  totalDays : ℕ
deriving Repr

/-- Models a `VacationWindow` (src/lib/vacationPlanner.ts lines 21–28); the
dates are day offsets from today. -/
structure VacationWindow where
  startDate : ℤ
  endDate : ℤ
  duration : ℤ
  totalClasses : ℕ
  atRiskCount : ℕ
  penalty : ℚ
deriving DecidableEq, Repr

/-- One day of `getVacationDays` (src/lib/vacationPlanner.ts lines 51–62):
the weekday of offset `d` is `(todayJsDay + d) % 7`, Sunday is weekday 0, and
`timetableDayIndex` is `jsDay - 1` (or `-1` on Sunday). -/
def mkVacationDay (todayJsDay : ℤ) (holidays : ℤ → Bool) (d : ℤ) : VacationDay :=
  let jsDay := (todayJsDay + d) % 7
  { date := d
    jsDay := jsDay
    timetableDayIndex := if jsDay = 0 then -1 else jsDay - 1
    isSunday := decide (jsDay = 0)
    isHoliday := holidays d }

/-- Models `getVacationDays` (src/lib/vacationPlanner.ts lines 40–65): one
entry per calendar day from `startDate` to `endDate` inclusive (empty when
`endDate < startDate`). -/
def getVacationDays (todayJsDay startDate endDate : ℤ) (holidays : ℤ → Bool) :
    List VacationDay :=
  (List.range (endDate + 1 - startDate).toNat).map
    (fun i => mkVacationDay todayJsDay holidays (startDate + (i : ℤ)))

/-- Bump `code` in the insertion-ordered tally (models the JS object
`codeCount`, whose `Object.entries` order is insertion order of the keys). -/
def bumpCode (acc : List (String × ℕ)) (code : String) : List (String × ℕ) :=
  match acc with
  | [] => [(code, 1)]
  | (k, v) :: rest =>
    if k = code then (k, v + 1) :: rest else (k, v) :: bumpCode rest code

/-- Accumulator of the per-day tally loop of `calculateVacationImpact`
(src/lib/vacationPlanner.ts lines 78–91). -/
structure TallyState where
  codeCount : List (String × ℕ)
  totalClasses : ℕ
  activeDays : ℕ
deriving Repr

/-- One iteration of the tally loop: Sundays and holidays are skipped, as are
days whose timetable entry is empty; otherwise the day's codes are tallied. -/
def tallyDay (timetable : Timetable) (st : TallyState) (day : VacationDay) : TallyState :=
  if day.isSunday || day.isHoliday then st
  else
    let codes := timetable day.timetableDayIndex
    if codes.isEmpty then st
    else
      { codeCount := codes.foldl bumpCode st.codeCount
        totalClasses := st.totalClasses + codes.length
        activeDays := st.activeDays + 1 }

/-- The impact built for one tallied code (src/lib/vacationPlanner.ts lines
95–137): `none` when the code has no matching subject. -/
def mkImpact (subjectMap : String → Option Subject) (globalThreshold : ℚ)
    (subjectThresholds : String → Option ℚ) (entry : String × ℕ) : Option SubjectImpact :=
  match subjectMap entry.1 with
  | none => none
  | some subject =>
    let threshold := getEffectiveThreshold subject globalThreshold subjectThresholds
    if subject.total = 0 then
      some { code := entry.1, name := subject.name, classCount := entry.2
             currentPct := 0, projectedPct := 0, drop := 0
             currentBunkable := 0, projectedBunkable := 0
             breachesThreshold := false, isNoData := true }
    else
      let currentPct := (subject.attended : ℚ) / (subject.total : ℚ) * 100
      let projectedPct :=
        (subject.attended : ℚ) / ((subject.total : ℚ) + (entry.2 : ℚ)) * 100
      some { code := entry.1, name := subject.name, classCount := entry.2
             currentPct := currentPct, projectedPct := projectedPct
             drop := currentPct - projectedPct
             currentBunkable := calculateClassesToBunk subject.attended subject.total threshold
             projectedBunkable :=
               calculateClassesToBunk subject.attended (subject.total + (entry.2 : ℤ)) threshold
             breachesThreshold := decide (projectedPct < threshold)
             isNoData := false }

/-- The JS comparator passed to `impacts.sort` (src/lib/vacationPlanner.ts
lines 140–144). -/
def impactCmp (a b : SubjectImpact) : ℚ :=
  if a.isNoData ≠ b.isNoData then (if a.isNoData then 1 else -1)
  else if a.breachesThreshold ≠ b.breachesThreshold then
    (if a.breachesThreshold then -1 else 1)
  else b.drop - a.drop

/-- `a` may precede `b` under the comparator (comparator value `≤ 0`).  JS
`Array.prototype.sort` is stable and, for a consistent comparator, orders the
array pairwise by this relation; it is modelled by `List.mergeSort`. -/
def impactLe (a b : SubjectImpact) : Bool := decide (impactCmp a b ≤ 0)

/-- Models `calculateVacationImpact` (src/lib/vacationPlanner.ts lines 70–147). -/
def calculateVacationImpact (vacationDays : List VacationDay) (timetable : Timetable)
    (subjectMap : String → Option Subject) (globalThreshold : ℚ)
    (subjectThresholds : String → Option ℚ) : VacationImpactResult :=
  let st := vacationDays.foldl (tallyDay timetable) ⟨[], 0, 0⟩
  let impacts := st.codeCount.filterMap (mkImpact subjectMap globalThreshold subjectThresholds)
  { impacts := impacts.mergeSort impactLe
    totalClasses := st.totalClasses
    activeDays := st.activeDays
    totalDays := vacationDays.length }

/-- Inert stand-in for the value of the non-null assertion
`subjectMap.get(impact.code)!` in the scoring loop; a lemma below shows the
lookup succeeds for every impact that is actually scored. -/
def defaultSubject : Subject :=
  { name := "", code := "", attended := 0, total := 0, percentage := 0 }

/-- One iteration of the penalty loop of `findBestVacationWindows`
(src/lib/vacationPlanner.ts lines 184–195): no-data impacts are skipped
(`continue`); otherwise the subject's margin over its effective threshold
picks a weight of 3, 2 or 1 and the impact adds `drop * weight * classCount`
to the running penalty. -/
def penaltyStep (subjectMap : String → Option Subject) (globalThreshold : ℚ)
    (subjectThresholds : String → Option ℚ) (pen : ℚ) (impact : SubjectImpact) : ℚ :=
  if impact.isNoData then pen
  else
    let threshold := getEffectiveThreshold ((subjectMap impact.code).getD defaultSubject)
      globalThreshold subjectThresholds
    let margin := impact.currentPct - threshold
    let weight : ℚ := if margin < 0 then 3 else if margin < 5 then 2 else 1
    pen + impact.drop * weight * (impact.classCount : ℚ)

/-- The penalty loop of `findBestVacationWindows` (src/lib/vacationPlanner.ts
lines 183–195), starting from `penalty = 0`. -/
def scorePenalty (subjectMap : String → Option Subject) (globalThreshold : ℚ)
    (subjectThresholds : String → Option ℚ) (impacts : List SubjectImpact) : ℚ :=
  impacts.foldl (penaltyStep subjectMap globalThreshold subjectThresholds) 0

/-- The empty holiday set used by the window scan (src/lib/vacationPlanner.ts
line 166). -/
def emptyHolidays : ℤ → Bool := fun _ => false

/-- The candidate window of `size` days starting `start` days from today
(loop body of src/lib/vacationPlanner.ts lines 172–209). -/
def mkCandidate (todayJsDay : ℤ) (timetable : Timetable)
    (subjectMap : String → Option Subject) (globalThreshold : ℚ)
    (subjectThresholds : String → Option ℚ) (size start : ℤ) : VacationWindow :=
  let windowEnd := start + size - 1
  let days := getVacationDays todayJsDay start windowEnd emptyHolidays
  let result := calculateVacationImpact days timetable subjectMap globalThreshold
    subjectThresholds
  { startDate := start
    endDate := windowEnd
    duration := size
    totalClasses := result.totalClasses
    atRiskCount := (result.impacts.filter (fun i => i.breachesThreshold && !i.isNoData)).length
    penalty := scorePenalty subjectMap globalThreshold subjectThresholds result.impacts }

/-- Start offsets scanned for one window size: `current` runs from tomorrow
(offset 1) while `current + size - 1 ≤ today + weeksAhead * 7`
(src/lib/vacationPlanner.ts lines 168–175). -/
def windowStarts (weeksAhead size : ℤ) : List ℤ :=
  (List.range (weeksAhead * 7 - size + 1).toNat).map (fun i => 1 + (i : ℤ))

/-- All candidate windows scored by the search, across all sizes, in
generation order (src/lib/vacationPlanner.ts lines 165–210). -/
def candidateWindows (todayJsDay : ℤ) (timetable : Timetable)
    (subjectMap : String → Option Subject) (globalThreshold : ℚ)
    (subjectThresholds : String → Option ℚ) (windowSizes : List ℤ) (weeksAhead : ℤ) :
    List VacationWindow :=
  windowSizes.flatMap (fun size =>
    (windowStarts weeksAhead size).map
      (mkCandidate todayJsDay timetable subjectMap globalThreshold subjectThresholds size))

/-- The comparator of `candidates.sort((a, b) => a.penalty - b.penalty)`
(src/lib/vacationPlanner.ts line 213) as a Bool relation. -/
def windowLe (a b : VacationWindow) : Bool := decide (a.penalty ≤ b.penalty)

/-- The greedy selection of up to 3 non-overlapping windows from the sorted
candidates (src/lib/vacationPlanner.ts lines 216–223). -/
def selectWindows : List VacationWindow → List VacationWindow → List VacationWindow
  | [], results => results
  | c :: rest, results =>
    if results.any (fun r =>
        decide (c.startDate ≤ r.endDate) && decide (r.startDate ≤ c.endDate)) then
      selectWindows rest results
    else
      let results2 := results ++ [c]
      if 3 ≤ results2.length then results2 else selectWindows rest results2

/-- Models `findBestVacationWindows` (src/lib/vacationPlanner.ts lines
152–226).  `todayJsDay` is the JS weekday of today, a clock input of the
source. -/
def findBestVacationWindows (timetable : Timetable)
    (subjectMap : String → Option Subject) (globalThreshold : ℚ)
    (subjectThresholds : String → Option ℚ) (windowSizes : List ℤ) (weeksAhead : ℤ)
    (todayJsDay : ℤ) : List VacationWindow :=
  let candidates := candidateWindows todayJsDay timetable subjectMap globalThreshold
    subjectThresholds windowSizes weeksAhead
  selectWindows (candidates.mergeSort windowLe) []

/-- Rank of an impact under the comparator's two leading keys: no-data entries
rank above data entries, and within each, non-breaching above breaching. -/
def sortRank (i : SubjectImpact) : ℕ :=
  (if i.isNoData then 2 else 0) + (if i.breachesThreshold then 0 else 1)

theorem impactLe_iff (a b : SubjectImpact) :
    impactLe a b = true ↔
      (sortRank a < sortRank b ∨ (sortRank a = sortRank b ∧ b.drop ≤ a.drop)) := by
  simp only [impactLe, decide_eq_true_eq]
  cases ha : a.isNoData <;> cases hb : b.isNoData <;>
    cases ha2 : a.breachesThreshold <;> cases hb2 : b.breachesThreshold <;>
      simp [impactCmp, sortRank, ha, hb, ha2, hb2, sub_nonpos]

theorem impactLe_trans (a b c : SubjectImpact) (hab : impactLe a b = true)
    (hbc : impactLe b c = true) : impactLe a c = true := by
  rw [impactLe_iff] at hab hbc ⊢
  rcases hab with h1 | ⟨h1, h1d⟩ <;> rcases hbc with h2 | ⟨h2, h2d⟩
  · exact Or.inl (lt_trans h1 h2)
  · exact Or.inl (h2 ▸ h1)
  · exact Or.inl (h1 ▸ h2)
  · exact Or.inr ⟨h1.trans h2, le_trans h2d h1d⟩

theorem impactLe_total (a b : SubjectImpact) :
    (impactLe a b || impactLe b a) = true := by
  rw [Bool.or_eq_true, impactLe_iff, impactLe_iff]
  rcases Nat.lt_trichotomy (sortRank a) (sortRank b) with h | h | h
  · exact Or.inl (Or.inl h)
  · rcases le_total b.drop a.drop with hd | hd
    · exact Or.inl (Or.inr ⟨h, hd⟩)
    · exact Or.inr (Or.inr ⟨h.symm, hd⟩)
  · exact Or.inr (Or.inl h)

/-- The ordering claimed by the spec for the sorted impact list: data entries
precede no-data entries; among entries with equal no-data flag, breaching
entries precede non-breaching ones; and with both flags equal, drops descend. -/
def impactsOrdered (a b : SubjectImpact) : Prop :=
  (a.isNoData = true → b.isNoData = true) ∧
  (a.isNoData = b.isNoData → b.breachesThreshold = true → a.breachesThreshold = true) ∧
  (a.isNoData = b.isNoData → a.breachesThreshold = b.breachesThreshold → b.drop ≤ a.drop)

theorem impactLe_implies_ordered {a b : SubjectImpact} (h : impactLe a b = true) :
    impactsOrdered a b := by
  rw [impactLe_iff] at h
  unfold impactsOrdered
  cases ha : a.isNoData <;> cases hb : b.isNoData <;>
    cases ha2 : a.breachesThreshold <;> cases hb2 : b.breachesThreshold <;>
      simp [sortRank, ha, hb, ha2, hb2] at h ⊢ <;> exact h

/-- The impacts field of `calculateVacationImpact`, unfolded. -/
theorem calculateVacationImpact_impacts_eq (vacationDays : List VacationDay)
    (timetable : Timetable) (subjectMap : String → Option Subject)
    (globalThreshold : ℚ) (subjectThresholds : String → Option ℚ) :
    (calculateVacationImpact vacationDays timetable subjectMap globalThreshold
        subjectThresholds).impacts =
      ((vacationDays.foldl (tallyDay timetable) ⟨[], 0, 0⟩).codeCount.filterMap
        (mkImpact subjectMap globalThreshold subjectThresholds)).mergeSort impactLe := rfl

/-- C6: the impacts list returned by `calculateVacationImpact` is sorted so
that all no-data entries come after all data entries, breaching data entries
precede non-breaching ones, and within each group drops are in descending
order. -/
theorem calculateVacationImpact_sorted (vacationDays : List VacationDay)
    (timetable : Timetable) (subjectMap : String → Option Subject)
    (globalThreshold : ℚ) (subjectThresholds : String → Option ℚ) :
    List.Pairwise impactsOrdered
      (calculateVacationImpact vacationDays timetable subjectMap globalThreshold
        subjectThresholds).impacts := by
  rw [calculateVacationImpact_impacts_eq]
  exact (List.sorted_mergeSort impactLe_trans impactLe_total _).imp
    (fun h => impactLe_implies_ordered h)

theorem mkImpact_code_isSome {subjectMap : String → Option Subject} {globalThreshold : ℚ}
    {subjectThresholds : String → Option ℚ} {entry : String × ℕ} {i : SubjectImpact}
    (h : mkImpact subjectMap globalThreshold subjectThresholds entry = some i) :
    i.code = entry.1 ∧ (subjectMap entry.1).isSome := by
  cases hsm : subjectMap entry.1 with
  | none => simp [mkImpact, hsm] at h
  | some s =>
    refine ⟨?_, by simp [hsm]⟩
    by_cases ht : s.total = 0 <;> simp [mkImpact, hsm, ht] at h <;> rw [← h]

/-- Every impact emitted by `calculateVacationImpact` has a code that resolves
in the subject map. -/
theorem impacts_code_isSome {vacationDays : List VacationDay} {timetable : Timetable}
    {subjectMap : String → Option Subject} {globalThreshold : ℚ}
    {subjectThresholds : String → Option ℚ} {i : SubjectImpact}
    (h : i ∈ (calculateVacationImpact vacationDays timetable subjectMap globalThreshold
      subjectThresholds).impacts) :
    (subjectMap i.code).isSome := by
  rw [calculateVacationImpact_impacts_eq, List.mem_mergeSort] at h
  rcases List.mem_filterMap.mp h with ⟨entry, -, hmk⟩
  rcases mkImpact_code_isSome hmk with ⟨hcode, hsome⟩
  rw [hcode]
  exact hsome

/-- C9: a timetable code with no matching subject in the subject map produces
no entry in the impacts list of `calculateVacationImpact`; the computation is
total, so the unrecognized code is dropped rather than causing an error. -/
theorem calculateVacationImpact_drops_unknown (vacationDays : List VacationDay)
    (timetable : Timetable) (subjectMap : String → Option Subject)
    (globalThreshold : ℚ) (subjectThresholds : String → Option ℚ) (code : String)
    (h : subjectMap code = none) :
    code ∉ (calculateVacationImpact vacationDays timetable subjectMap globalThreshold
      subjectThresholds).impacts.map SubjectImpact.code := by
  intro hmem
  rcases List.mem_map.mp hmem with ⟨i, hi, hcode⟩
  have hsome := impacts_code_isSome hi
  rw [hcode, h] at hsome
  cases hsome

theorem calculateVacationImpact_drops_unknown_witness :
    "GHOST" ∉ (calculateVacationImpact [⟨1, 1, 0, false, false⟩]
      (fun i => if i = 0 then ["GHOST"] else []) (fun _ => none) 75
      (fun _ => none)).impacts.map SubjectImpact.code :=
  calculateVacationImpact_drops_unknown [⟨1, 1, 0, false, false⟩]
    (fun i => if i = 0 then ["GHOST"] else []) (fun _ => none) 75 (fun _ => none)
    "GHOST" rfl

/-- The weight the spec's scoring formula assigns to an impact: the margin is
`currentPct` minus the subject's effective threshold; the weight is 3 when the
margin is negative, 2 when `0 ≤ margin < 5`, else 1. -/
def specWeight (subjectMap : String → Option Subject) (globalThreshold : ℚ)
    (subjectThresholds : String → Option ℚ) (impact : SubjectImpact) : ℚ :=
  let threshold :=
    match subjectMap impact.code with
    | some s => getEffectiveThreshold s globalThreshold subjectThresholds
    | none => globalThreshold
  let margin := impact.currentPct - threshold
  if margin < 0 then 3 else if margin < 5 then 2 else 1

/-- The spec's penalty of a window: the sum over all non-no-data impacts of
`drop * weight * classCount`. -/
def penaltySpec (subjectMap : String → Option Subject) (globalThreshold : ℚ)
    (subjectThresholds : String → Option ℚ) (impacts : List SubjectImpact) : ℚ :=
  ((impacts.filter (fun i => !i.isNoData)).map
    (fun i => i.drop * specWeight subjectMap globalThreshold subjectThresholds i *
      (i.classCount : ℚ))).sum

/-- The contribution of a single impact to the source's penalty loop. -/
def codeContrib (subjectMap : String → Option Subject) (globalThreshold : ℚ)
    (subjectThresholds : String → Option ℚ) (impact : SubjectImpact) : ℚ :=
  if impact.isNoData then 0
  else
    let threshold := getEffectiveThreshold ((subjectMap impact.code).getD defaultSubject)
      globalThreshold subjectThresholds
    let margin := impact.currentPct - threshold
    let weight : ℚ := if margin < 0 then 3 else if margin < 5 then 2 else 1
    impact.drop * weight * (impact.classCount : ℚ)

theorem penaltyStep_eq (subjectMap : String → Option Subject) (globalThreshold : ℚ)
    (subjectThresholds : String → Option ℚ) (pen : ℚ) (impact : SubjectImpact) :
    penaltyStep subjectMap globalThreshold subjectThresholds pen impact =
      pen + codeContrib subjectMap globalThreshold subjectThresholds impact := by
  cases h : impact.isNoData <;> simp [penaltyStep, codeContrib, h]

theorem scorePenalty_eq_sum (subjectMap : String → Option Subject) (globalThreshold : ℚ)
    (subjectThresholds : String → Option ℚ) (impacts : List SubjectImpact) :
    scorePenalty subjectMap globalThreshold subjectThresholds impacts =
      (impacts.map (codeContrib subjectMap globalThreshold subjectThresholds)).sum := by
  suffices h : ∀ (l : List SubjectImpact) (acc : ℚ),
      l.foldl (penaltyStep subjectMap globalThreshold subjectThresholds) acc =
        acc + (l.map (codeContrib subjectMap globalThreshold subjectThresholds)).sum by
    simpa [scorePenalty] using h impacts 0
  intro l
  induction l with
  | nil => simp
  | cons a l ih =>
    intro acc
    simp only [List.foldl_cons, List.map_cons, List.sum_cons, ih, penaltyStep_eq]
    ring

theorem codeContrib_eq_spec {subjectMap : String → Option Subject} {globalThreshold : ℚ}
    {subjectThresholds : String → Option ℚ} {impact : SubjectImpact}
    (h : (subjectMap impact.code).isSome) :
    codeContrib subjectMap globalThreshold subjectThresholds impact =
      (if impact.isNoData then 0
       else impact.drop * specWeight subjectMap globalThreshold subjectThresholds impact *
         (impact.classCount : ℚ)) := by
  rcases Option.isSome_iff_exists.mp h with ⟨s, hs⟩
  cases hnd : impact.isNoData <;> simp [codeContrib, specWeight, hs, hnd]

theorem penaltySpec_eq_mapsum (subjectMap : String → Option Subject) (globalThreshold : ℚ)
    (subjectThresholds : String → Option ℚ) (impacts : List SubjectImpact) :
    penaltySpec subjectMap globalThreshold subjectThresholds impacts =
      (impacts.map (fun i =>
        if i.isNoData then 0
        else i.drop * specWeight subjectMap globalThreshold subjectThresholds i *
          (i.classCount : ℚ))).sum := by
  induction impacts with
  | nil => simp [penaltySpec]
  | cons a l ih =>
    cases h : a.isNoData <;>
      simp only [penaltySpec, List.filter_cons, List.map_cons, List.sum_cons, h] at ih ⊢ <;>
        simp [ih, h]

/-- C5: every candidate window scored by the vacation-window search carries as
its `penalty` exactly the spec's weighted sum: over all non-no-data impacts of
its date range, `drop * weight * classCount`, with weight 3 when the subject's
margin (`currentPct` minus effective threshold) is negative, 2 when below 5,
else 1. -/
theorem candidate_penalty_eq_spec (todayJsDay : ℤ) (timetable : Timetable)
    (subjectMap : String → Option Subject) (globalThreshold : ℚ)
    (subjectThresholds : String → Option ℚ) (windowSizes : List ℤ) (weeksAhead : ℤ)
    (c : VacationWindow)
    (hc : c ∈ candidateWindows todayJsDay timetable subjectMap globalThreshold
      subjectThresholds windowSizes weeksAhead) :
    c.penalty = penaltySpec subjectMap globalThreshold subjectThresholds
      (calculateVacationImpact
        (getVacationDays todayJsDay c.startDate c.endDate emptyHolidays)
        timetable subjectMap globalThreshold subjectThresholds).impacts := by
  rcases List.mem_flatMap.mp hc with ⟨size, -, hmem⟩
  rcases List.mem_map.mp hmem with ⟨start, -, rfl⟩
  rw [show (mkCandidate todayJsDay timetable subjectMap globalThreshold subjectThresholds
        size start).penalty =
      scorePenalty subjectMap globalThreshold subjectThresholds
        (calculateVacationImpact
          (getVacationDays todayJsDay start (start + size - 1) emptyHolidays)
          timetable subjectMap globalThreshold subjectThresholds).impacts from rfl]
  rw [show (mkCandidate todayJsDay timetable subjectMap globalThreshold subjectThresholds
        size start).startDate = start from rfl]
  rw [show (mkCandidate todayJsDay timetable subjectMap globalThreshold subjectThresholds
        size start).endDate = start + size - 1 from rfl]
  rw [scorePenalty_eq_sum, penaltySpec_eq_mapsum]
  apply congrArg List.sum
  apply List.map_congr_left
  intro i hi
  exact codeContrib_eq_spec (impacts_code_isSome hi)

theorem candidate_penalty_eq_spec_witness :
    (mkCandidate 0 (fun _ => ["CS101"]) (fun _ => (none : Option Subject)) 75
        (fun _ => (none : Option ℚ)) 1 1).penalty =
      penaltySpec (fun _ => (none : Option Subject)) 75 (fun _ => (none : Option ℚ))
        (calculateVacationImpact
          (getVacationDays 0
            (mkCandidate 0 (fun _ => ["CS101"]) (fun _ => (none : Option Subject)) 75
              (fun _ => (none : Option ℚ)) 1 1).startDate
            (mkCandidate 0 (fun _ => ["CS101"]) (fun _ => (none : Option Subject)) 75
              (fun _ => (none : Option ℚ)) 1 1).endDate
            emptyHolidays)
          (fun _ => ["CS101"]) (fun _ => (none : Option Subject)) 75
          (fun _ => (none : Option ℚ))).impacts := by
  apply candidate_penalty_eq_spec 0 (fun _ => ["CS101"]) (fun _ => (none : Option Subject))
    75 (fun _ => (none : Option ℚ)) [1] 1
  have h1 : (1 : ℤ) ∈ windowStarts 1 1 := by
    simp only [windowStarts]
    refine List.mem_map.mpr ⟨0, ?_, by norm_num⟩
    decide
  have h2 := List.mem_map_of_mem
    (mkCandidate 0 (fun _ => ["CS101"]) (fun _ => (none : Option Subject)) 75
      (fun _ => (none : Option ℚ)) 1) h1
  unfold candidateWindows
  simp only [List.flatMap_cons, List.flatMap_nil, List.append_nil]
  exact h2

/-- Two windows' date ranges overlap, per the source's test
`c.startDate <= r.endDate && c.endDate >= r.startDate`
(src/lib/vacationPlanner.ts line 218). -/
def windowsOverlap (c r : VacationWindow) : Prop :=
  c.startDate ≤ r.endDate ∧ c.endDate ≥ r.startDate

theorem selectWindows_invariant (cands : List VacationWindow)
    (results : List VacationWindow)
    (hres : List.Pairwise (fun a b => ¬ windowsOverlap a b) results)
    (hlen : results.length ≤ 2) :
    List.Pairwise (fun a b => ¬ windowsOverlap a b) (selectWindows cands results) ∧
    (selectWindows cands results).length ≤ 3 := by
  induction cands generalizing results with
  | nil =>
    simp only [selectWindows]
    exact ⟨hres, by omega⟩
  | cons c rest ih =>
    simp only [selectWindows]
    by_cases hov : results.any (fun r =>
        decide (c.startDate ≤ r.endDate) && decide (r.startDate ≤ c.endDate)) = true
    · rw [if_pos hov]
      exact ih results hres hlen
    · rw [if_neg hov]
      have hnov : ∀ r ∈ results, ¬ windowsOverlap c r := by
        intro r hr hcon
        apply hov
        rw [List.any_eq_true]
        refine ⟨r, hr, ?_⟩
        simp only [Bool.and_eq_true, decide_eq_true_eq]
        exact ⟨hcon.1, hcon.2⟩
      have hpair2 : List.Pairwise (fun a b => ¬ windowsOverlap a b) (results ++ [c]) := by
        rw [List.pairwise_append]
        refine ⟨hres, List.pairwise_singleton _ _, ?_⟩
        intro a ha b hb
        rw [List.mem_singleton] at hb
        subst hb
        intro hcon
        exact hnov a ha ⟨hcon.2, hcon.1⟩
      by_cases h3 : 3 ≤ (results ++ [c]).length
      · rw [if_pos h3]
        refine ⟨hpair2, ?_⟩
        simp only [List.length_append, List.length_singleton]
        omega
      · rw [if_neg h3]
        apply ih
        · exact hpair2
        · simp only [List.length_append, List.length_singleton] at h3 ⊢
          omega

/-- C1: for every timetable, subject map, thresholds, window sizes, weeks-ahead
horizon (and weekday of today), the list returned by `findBestVacationWindows`
contains no two windows whose date ranges overlap — overlap meaning
`a.startDate ≤ b.endDate ∧ a.endDate ≥ b.startDate` — and has at most 3
entries. -/
theorem findBestVacationWindows_nonoverlapping (timetable : Timetable)
    (subjectMap : String → Option Subject) (globalThreshold : ℚ)
    (subjectThresholds : String → Option ℚ) (windowSizes : List ℤ)
    (weeksAhead todayJsDay : ℤ) :
    List.Pairwise (fun a b => ¬ windowsOverlap a b)
      (findBestVacationWindows timetable subjectMap globalThreshold subjectThresholds
        windowSizes weeksAhead todayJsDay) ∧
    (findBestVacationWindows timetable subjectMap globalThreshold subjectThresholds
      windowSizes weeksAhead todayJsDay).length ≤ 3 := by
  unfold findBestVacationWindows
  exact selectWindows_invariant _ [] List.Pairwise.nil (by simp)

theorem selectWindows_length_le (cands results : List VacationWindow) :
    results.length ≤ (selectWindows cands results).length := by
  induction cands generalizing results with
  | nil => simp [selectWindows]
  | cons c rest ih =>
    simp only [selectWindows]
    by_cases hov : results.any (fun r =>
        decide (c.startDate ≤ r.endDate) && decide (r.startDate ≤ c.endDate)) = true
    · rw [if_pos hov]
      exact ih results
    · rw [if_neg hov]
      by_cases h3 : 3 ≤ (results ++ [c]).length
      · rw [if_pos h3]
        simp only [List.length_append, List.length_singleton]
        omega
      · rw [if_neg h3]
        calc results.length ≤ (results ++ [c]).length := by
              simp only [List.length_append, List.length_singleton]
              omega
          _ ≤ _ := ih _

theorem selectWindows_cons_ne_nil (c : VacationWindow) (rest : List VacationWindow) :
    selectWindows (c :: rest) [] ≠ [] := by
  simp only [selectWindows, List.any_nil, Bool.false_eq_true, if_false, List.nil_append,
    List.length_singleton]
  by_cases h3 : 3 ≤ 1
  · omega
  · rw [if_neg h3]
    intro h
    have hle := selectWindows_length_le rest [c]
    rw [h] at hle
    simp at hle

/-- C8 as amended: when no vacation window fits within the scan horizon —
when every size in `windowSizes` exceeds `weeksAhead * 7` days —
`findBestVacationWindows` returns the empty list (the search is total; no
error is possible). -/
theorem findBest_empty_of_no_window_fits (timetable : Timetable)
    (subjectMap : String → Option Subject) (globalThreshold : ℚ)
    (subjectThresholds : String → Option ℚ) (windowSizes : List ℤ)
    (weeksAhead todayJsDay : ℤ)
    (h : ∀ s ∈ windowSizes, weeksAhead * 7 < s) :
    findBestVacationWindows timetable subjectMap globalThreshold subjectThresholds
      windowSizes weeksAhead todayJsDay = [] := by
  have hc : candidateWindows todayJsDay timetable subjectMap globalThreshold
      subjectThresholds windowSizes weeksAhead = [] := by
    unfold candidateWindows
    induction windowSizes with
    | nil => rfl
    | cons s rest ih =>
      rw [List.flatMap_cons]
      have hs : windowStarts weeksAhead s = [] := by
        unfold windowStarts
        have : (weeksAhead * 7 - s + 1).toNat = 0 := by
          have := h s (List.mem_cons_self s rest)
          omega
        rw [this]
        rfl
      rw [hs]
      simp only [List.map_nil, List.nil_append]
      exact ih (fun x hx => h x (List.mem_cons_of_mem s hx))
  rw [show findBestVacationWindows timetable subjectMap globalThreshold subjectThresholds
        windowSizes weeksAhead todayJsDay =
      selectWindows ((candidateWindows todayJsDay timetable subjectMap globalThreshold
        subjectThresholds windowSizes weeksAhead).mergeSort windowLe) [] from rfl]
  rw [hc, List.mergeSort_nil]
  rfl

theorem findBest_empty_of_no_window_fits_witness :
    findBestVacationWindows (fun _ => []) (fun _ => none) 75 (fun _ => none)
      [3, 5, 7] 0 0 = [] :=
  findBest_empty_of_no_window_fits (fun _ => []) (fun _ => none) 75 (fun _ => none)
    [3, 5, 7] 0 0 (by decide)

/-- C8 counterexample to the claim as stated: with window sizes `[1, 20]` and
one week of horizon, `weeksAhead * 7 = 7` is below the maximum window size 20,
yet the search still returns windows (the size-1 windows fit), so
`weeksAhead * 7 < max(windowSizes)` does not imply an empty result. -/
theorem findBest_horizon_counterexample :
    (1 : ℤ) * 7 < 20 ∧ ([1, 20] : List ℤ).maximum = some 20 ∧
    findBestVacationWindows (fun _ => []) (fun _ => none) 75 (fun _ => none)
      [1, 20] 1 0 ≠ [] := by
  refine ⟨by norm_num, by decide, ?_⟩
  rw [show findBestVacationWindows (fun _ => []) (fun _ => none) 75 (fun _ => none)
        [1, 20] 1 0 =
      selectWindows ((candidateWindows 0 (fun _ => []) (fun _ => none) 75
        (fun _ => none) [1, 20] 1).mergeSort windowLe) [] from rfl]
  have hlen : (candidateWindows 0 (fun _ => []) (fun _ => none) 75 (fun _ => none)
      [1, 20] 1).length = 7 := rfl
  cases hms : (candidateWindows 0 (fun _ => []) (fun _ => none) 75 (fun _ => none)
      [1, 20] 1).mergeSort windowLe with
  | nil =>
    have hl := congrArg List.length hms
    rw [List.length_mergeSort, hlen] at hl
    simp at hl
  | cons c cs =>
    exact selectWindows_cons_ne_nil c cs

end UniTrack
